import Mathlib

/-!
Shallow embedding of the platformer simulation core in `src/app/page.tsx`
(`update` and its helpers `moveAndCollide`, `bossIntegrate`,
`findGroundBelow`, `spawnShockwave`, plus the entity model).
JavaScript numbers are modelled as rationals; the tick counters,
lifetimes, cooldowns and boss phase/timer are integers, exactly as the
source only ever adds or subtracts 1 on them.  Audio cues are pure
effects with no influence on simulation state and are dropped.
-/

namespace Jogo

/-- Axis-aligned box: `Rect` from the source. -/
structure Rect where
  x : ℚ
  y : ℚ
  w : ℚ
  h : ℚ
deriving DecidableEq, Repr

/-- Source `Platform`: a box with optional horizontal velocity and an
inclusive travel range for kinematic platforms. -/
structure Platform where
  x : ℚ
  y : ℚ
  w : ℚ
  h : ℚ
  vx : Option ℚ := none
  range : Option (ℚ × ℚ) := none
deriving DecidableEq, Repr

/-- Source `Projectile`: a box with velocity, lifetime and owner flag. -/
structure Projectile where
  x : ℚ
  y : ℚ
  w : ℚ
  h : ℚ
  vx : ℚ
  vy : ℚ
  life : ℤ
  friendly : Bool
deriving DecidableEq, Repr

/-- Tag distinguishing the two enemy variants. -/
inductive EnemyKind where
  | swordsman
  | archer
deriving DecidableEq, Repr

/-- Enemy: the source's tagged union `Swordsman | Archer` flattened into one
record (variant-specific fields are only read under the matching tag). -/
structure Enemy where
  x : ℚ
  y : ℚ
  w : ℚ
  h : ℚ
  alive : Bool
  kind : EnemyKind
  dir : ℚ := 1
  minX : ℚ := 0
  maxX : ℚ := 0
  speed : ℚ := 0
  cooldown : ℤ := 0
  fireRate : ℤ := 0
deriving DecidableEq, Repr

/-- Source `Boss` record. -/
structure Boss where
  x : ℚ
  y : ℚ
  w : ℚ
  h : ℚ
  hp : ℤ
  alive : Bool
  phase : ℤ
  timer : ℤ
  vx : ℚ
  vy : ℚ
  grounded : Bool
deriving DecidableEq, Repr

/-- Source `Player` record. -/
structure Player where
  x : ℚ
  y : ℚ
  w : ℚ
  h : ℚ
  vx : ℚ
  vy : ℚ
  facing : ℤ
  onGround : Bool
  crouch : Bool
  canFireAt : ℚ
  invuln : ℚ
deriving DecidableEq, Repr

/-- Input snapshot `Keys`. -/
structure Keys where
  left : Bool
  right : Bool
  up : Bool
  down : Bool
  jump : Bool
  fire : Bool
  crouch : Bool
deriving DecidableEq, Repr

/-- Source `Level` container (the `kind` tag is irrelevant to `update` and omitted). -/
structure Level where
  platforms : List Platform
  enemies : List Enemy
  arrows : List Projectile
  projs : List Projectile
  gem : Rect
  boss : Option Boss := none
  cameraX : ℚ
  worldW : ℚ
  worldH : ℚ
  tick : ℤ
deriving DecidableEq, Repr

/-- Physics constants from the source. -/
def GRAVITY : ℚ := 35/100

def MOVE_SPEED : ℚ := 1

def JUMP_VEL : ℚ := -6

def MAX_FALL : ℚ := 13/2

def BASE_W : ℚ := 256

def BASE_H : ℚ := 144

/-- Box projections for the structural `aabb` calls of the source. -/
def Platform.rect (p : Platform) : Rect := ⟨p.x, p.y, p.w, p.h⟩

def Projectile.rect (p : Projectile) : Rect := ⟨p.x, p.y, p.w, p.h⟩

def Enemy.rect (e : Enemy) : Rect := ⟨e.x, e.y, e.w, e.h⟩

def Boss.rect (b : Boss) : Rect := ⟨b.x, b.y, b.w, b.h⟩

def Player.rect (p : Player) : Rect := ⟨p.x, p.y, p.w, p.h⟩

/-- Source `aabb`: strict axis-aligned box overlap, exactly the source's
negation of the four separating conditions. -/
def aabb (a b : Rect) : Bool :=
  if a.x + a.w ≤ b.x ∨ a.x ≥ b.x + b.w ∨ a.y + a.h ≤ b.y ∨ a.y ≥ b.y + b.h then
    false
  else true

/-- Source `clamp`: the value `Math.max(min, Math.min(max, v))`. -/
def clamp (v lo hi : ℚ) : ℚ := max lo (min hi v)

/-- The sign function `Math.sign`. -/
def msign (q : ℚ) : ℚ := if q > 0 then 1 else if q < 0 then -1 else 0

/-- The duck-typed moving body `moveAndCollide` operates on: the shared
physics fields of `Player` and `Boss` (`onGround` is the player's grounded
flag, `grounded` the boss's; the source sets both through `any`-casts). -/
structure MBody where
  x : ℚ
  y : ℚ
  w : ℚ
  h : ℚ
  vx : ℚ
  vy : ℚ
  onGround : Bool
  grounded : Bool
deriving DecidableEq, Repr

def MBody.rect (b : MBody) : Rect := ⟨b.x, b.y, b.w, b.h⟩

/-- One iteration of the horizontal-collision loop of `moveAndCollide`. -/
def collideH1 (b : MBody) (p : Platform) : MBody :=
  if aabb b.rect p.rect then
    if b.vx > 0 then { b with x := p.x - b.w, vx := 0 }
    else if b.vx < 0 then { b with x := p.x + p.w, vx := 0 }
    else { b with vx := 0 }
  else b

/-- Horizontal pass of `moveAndCollide`: advance `x` by `vx * dt`, then
resolve sequentially against every overlapping platform. -/
def moveH (dt : ℚ) (b : MBody) (ps : List Platform) : MBody :=
  ps.foldl collideH1 { b with x := b.x + b.vx * dt }

/-- One iteration of the vertical-collision loop of `moveAndCollide`. -/
def collideV1 (b : MBody) (p : Platform) : MBody :=
  if aabb b.rect p.rect then
    if b.vy > 0 then
      { b with y := p.y - b.h, vy := 0, onGround := true, grounded := true }
    else if b.vy < 0 then { b with y := p.y + p.h, vy := 0 }
    else b
  else b

/-- Vertical pass of `moveAndCollide`: clear the grounded flags, advance `y`
by `vy * dt`, then resolve sequentially against every overlapping platform. -/
def moveV (dt : ℚ) (b : MBody) (ps : List Platform) : MBody :=
  ps.foldl collideV1
    { b with onGround := false, grounded := false, y := b.y + b.vy * dt }

/-- Source `moveAndCollide`: horizontal pass then vertical pass. -/
def moveAndCollide (dt : ℚ) (b : MBody) (ps : List Platform) : MBody :=
  moveV dt (moveH dt b ps) ps

def Player.toBody (p : Player) : MBody :=
  ⟨p.x, p.y, p.w, p.h, p.vx, p.vy, p.onGround, false⟩

def Player.fromBody (p : Player) (b : MBody) : Player :=
  { p with x := b.x, y := b.y, vx := b.vx, vy := b.vy, onGround := b.onGround }

def Boss.toBody (b : Boss) : MBody :=
  ⟨b.x, b.y, b.w, b.h, b.vx, b.vy, false, b.grounded⟩

def Boss.fromBody (bs : Boss) (b : MBody) : Boss :=
  { bs with x := b.x, y := b.y, vx := b.vx, vy := b.vy, grounded := b.grounded }

/-- Source `bossIntegrate`: gravity, fall-speed clamp, then `moveAndCollide`. -/
def bossIntegrate (b : Boss) (ps : List Platform) (dt : ℚ) : Boss :=
  let b := { b with vy := clamp (b.vy + GRAVITY * dt) (-999) MAX_FALL }
  b.fromBody (moveAndCollide dt b.toBody ps)

/-- Eligibility test of the `findGroundBelow` loop: horizontal spans overlap
strictly and the platform top is at or below the entity's top edge `a.y`. -/
def groundCandidate (a : Rect) (p : Platform) : Bool :=
  if (a.x + a.w > p.x ∧ a.x < p.x + p.w) ∧ p.y ≥ a.y then true else false

/-- One iteration of the `findGroundBelow` loop (`bestY` is always `best.y`,
or `+∞` represented by `none`). -/
def fgbStep (a : Rect) (acc : Option Platform) (p : Platform) : Option Platform :=
  if a.x + a.w > p.x ∧ a.x < p.x + p.w then
    match acc with
    | none => if p.y ≥ a.y then some p else none
    | some b => if p.y ≥ a.y ∧ p.y < b.y then some p else some b
  else acc

/-- Source `findGroundBelow`: the first platform of minimal top edge `y` among those
whose horizontal span overlaps `a` and whose top is at or below `a.y`. -/
def findGroundBelow (a : Rect) (ps : List Platform) : Option Platform :=
  ps.foldl (fgbStep a) none

/-- Ground snap used by both enemy variants: `if (ground) e.y = ground.y - e.h`. -/
def snapToGround (e : Enemy) (ps : List Platform) : Enemy :=
  match findGroundBelow e.rect ps with
  | some g => { e with y := g.y - e.h }
  | none => e

/-- Kinematic platform motion (`update`, platform loop): only platforms with a
nonzero `vx` and a `range` move; the velocity reverses when the box leaves the
inclusive range. -/
def movePlatform (dt : ℚ) (pl : Platform) : Platform :=
  match pl.vx, pl.range with
  | some v, some r =>
    if v ≠ 0 then
      let pl2 := { pl with x := pl.x + v * dt }
      if pl2.x < r.1 ∨ pl2.x + pl2.w > r.2 then { pl2 with vx := some (-v) }
      else pl2
    else pl
  | _, _ => pl

/-- Input block of `update`: directional velocity (opposing keys cancel),
crouch gate, friction with epsilon snap, and the jump. -/
def inputStage (p : Player) (k : Keys) : Player :=
  let wantLeft := k.left && !k.right
  let wantRight := k.right && !k.left
  let onGround := p.onGround
  let p := { p with crouch := k.crouch && onGround }
  let maxSpeed := if p.crouch then MOVE_SPEED * (3/5) else MOVE_SPEED
  let p :=
    if wantLeft then { p with vx := -maxSpeed, facing := -1 }
    else if wantRight then { p with vx := maxSpeed, facing := 1 }
    else
      let v := p.vx * (4/5)
      { p with vx := if |v| < 2/100 then 0 else v }
  if k.jump && onGround && !p.crouch then
    { p with vy := JUMP_VEL, onGround := false }
  else p

/-- The friendly projectile spawned by player fire. -/
def fireball (p : Player) : Projectile :=
  { x := if p.facing = 1 then p.x + p.w else p.x - 4, y := p.y + 4, w := 4,
    h := 3, vx := (p.facing : ℚ) * (11/5), vy := 0, life := 120,
    friendly := true }

/-- Fire block of `update`: spawn one fireball if the fire key is held and the
cooldown allows it; set the next allowed fire time to `t + 5000`. -/
def fireStage (p : Player) (fire : Bool) (t : ℚ) : Player × List Projectile :=
  if fire ∧ t ≥ p.canFireAt then ({ p with canFireAt := t + 5000 }, [fireball p])
  else (p, [])

/-- Crouch height block: shrink to height 8 when crouching, restore 12 when
not; shift `y` down by the height delta only when the height decreased. -/
def crouchHeight (p : Player) : Player :=
  let prevH := p.h
  let p := { p with h := if p.crouch then 8 else 12 }
  if p.h < prevH then { p with y := p.y + (prevH - p.h) } else p

/-- One enemy's AI step (swordsman patrol + contact knockback, or archer
cooldown + arrow spawn), threading the player and the appended arrows. -/
def enemyStep (ps : List Platform) (dt : ℚ)
    (st : Player × List Projectile × List Enemy) (e : Enemy) :
    Player × List Projectile × List Enemy :=
  let p := st.1
  let arrs := st.2.1
  let acc := st.2.2
  if e.alive then
    match e.kind with
    | .swordsman =>
      let e := { e with x := e.x + e.dir * e.speed * dt }
      let e := if e.x < e.minX ∨ e.x + e.w > e.maxX then { e with dir := -e.dir }
               else e
      let e := snapToGround e ps
      let p := if aabb p.rect e.rect then
          { p with vx := (if p.x < e.x then -1 else 1) * (6/5), vy := -2 }
        else p
      (p, arrs, acc ++ [e])
    | .archer =>
      let e := { e with cooldown := e.cooldown - 1 }
      let e := snapToGround e ps
      if e.cooldown ≤ 0 then
        let arrow : Projectile :=
          { x := e.x + e.w, y := e.y + 6, w := 5, h := 2,
            vx := if p.x > e.x then 8/5 else -(8/5), vy := 0, life := 240,
            friendly := false }
        (p, arrs ++ [arrow], acc ++ [{ e with cooldown := e.fireRate }])
      else (p, arrs, acc ++ [e])
  else (p, arrs, acc ++ [e])

/-- Enemy AI loop of `update`. -/
def enemiesStage (es : List Enemy) (p : Player) (ps : List Platform) (dt : ℚ) :
    Player × List Projectile × List Enemy :=
  es.foldl (enemyStep ps dt) (p, [], [])

/-- Projectile integration: advance by velocity, decrement lifetime. -/
def integ (dt : ℚ) (pr : Projectile) : Projectile :=
  { pr with x := pr.x + pr.vx * dt, y := pr.y + pr.vy * dt, life := pr.life - 1 }

/-- Cull predicate: keep projectiles with positive lifetime that are within
the world bounds extended by a 10-unit margin either side. -/
def keepProj (w : ℚ) (pr : Projectile) : Bool :=
  if pr.life > 0 ∧ pr.x > -10 ∧ pr.x < w + 10 then true else false

/-- Inner loop of the fireball-collision block: one enemy tested against the
current friendly projectile (no break — every living overlapping enemy is
marked dead and the projectile's lifetime is set to 0 each time). -/
def fbEnemyStep (st : Projectile × List Enemy) (e : Enemy) :
    Projectile × List Enemy :=
  let pr := st.1
  let acc := st.2
  if e.alive then
    if aabb pr.rect e.rect then
      ({ pr with life := 0 }, acc ++ [{ e with alive := false }])
    else (pr, acc ++ [e])
  else (pr, acc ++ [e])

/-- Boss test of the fireball-collision block: a living overlapping boss loses
one hit point (flipping `alive` at ≤ 0) and the projectile's lifetime is set
to 0; the test does not look at the projectile's lifetime. -/
def fbBossStep (pr : Projectile) (ob : Option Boss) : Projectile × Option Boss :=
  match ob with
  | some b =>
    if b.alive ∧ aabb pr.rect b.rect then
      let b := { b with hp := b.hp - 1 }
      let b := if b.hp ≤ 0 then { b with alive := false } else b
      ({ pr with life := 0 }, some b)
    else (pr, some b)
  | none => (pr, none)

/-- One friendly projectile's pass over all enemies and then the boss. -/
def fbStep (st : List Projectile × List Enemy × Option Boss) (pr : Projectile) :
    List Projectile × List Enemy × Option Boss :=
  let acc := st.1
  let es := st.2.1
  let ob := st.2.2
  if pr.friendly then
    let r1 := es.foldl fbEnemyStep (pr, [])
    let r2 := fbBossStep r1.1 ob
    (acc ++ [r2.1], r1.2, r2.2)
  else (acc ++ [pr], es, ob)

/-- Fireball-collision block of `update`. -/
def fireballStage (prs : List Projectile) (es : List Enemy) (ob : Option Boss) :
    List Projectile × List Enemy × Option Boss :=
  prs.foldl fbStep ([], es, ob)

/-- One hostile projectile tested against the player: knockback opposite the
arrow's travel direction unless the player is crouching and the arrow's
vertical midpoint is above the head line; the arrow itself is threaded through
untouched (the source loop only assigns to the player). -/
def arrowHitStep (st : Player × List Projectile) (ar : Projectile) :
    Player × List Projectile :=
  let p := st.1
  let acc := st.2
  let p :=
    if aabb ar.rect p.rect then
      let arrowMidY := ar.y + ar.h / 2
      let headHeight := p.y + (if p.crouch then 4 else 6)
      if ¬(p.crouch ∧ arrowMidY < headHeight) then
        { p with vx := -(msign ar.vx) * (8/5), vy := -(5/2) }
      else p
    else p
  (p, acc ++ [ar])

/-- Arrow-vs-player block of `update`. -/
def arrowsPlayerStage (p : Player) (ars : List Projectile) :
    Player × List Projectile :=
  ars.foldl arrowHitStep (p, [])

/-- Source `spawnShockwave`: the two ground-hugging hostile projectiles of boss
phase 1, traveling left and right from the boss's position. -/
def shockwaveArrows (b : Boss) : List Projectile :=
  [ { x := b.x, y := b.y + b.h - 2, w := 6, h := 2, vx := -(8/5), vy := 0,
      life := 90, friendly := false },
    { x := b.x + b.w - 6, y := b.y + b.h - 2, w := 6, h := 2, vx := 8/5,
      vy := 0, life := 90, friendly := false } ]

/-- The phase-2 volley projectile, aimed toward the player's side. -/
def volleyArrow (b : Boss) (px : ℚ) : Projectile :=
  let dir : ℚ := if px < b.x then -1 else 1
  { x := b.x + (if dir = 1 then b.w else -4), y := b.y + 7, w := 5, h := 2,
    vx := dir * (9/5), vy := 0, life := 200, friendly := false }

/-- One tick of the boss state machine (timer increment, phase behavior and
phase transition), returning the updated boss and the spawned hostile
projectiles.  Contact knockback lives in `bossStage`. -/
def bossPhaseStep (ps : List Platform) (px dt : ℚ) (b : Boss) :
    Boss × List Projectile :=
  let b := { b with timer := b.timer + 1 }
  if b.phase = 0 then
    let b := if b.timer = 1 then
        { b with vx := if px < b.x then -(6/5) else 6/5, vy := -(9/2) }
      else b
    let b := bossIntegrate b ps dt
    let b := if b.grounded ∧ b.timer > 90 then { b with phase := 1, timer := 0 }
             else b
    (b, [])
  else if b.phase = 1 then
    let arrs := if b.timer = 1 then shockwaveArrows b else []
    let b := if b.timer > 100 then { b with phase := 2, timer := 0 } else b
    (b, arrs)
  else if b.phase = 2 then
    let arrs := if b.timer = 1 ∨ b.timer = 30 ∨ b.timer = 60 then
        [volleyArrow b px]
      else []
    let b := if b.timer > 100 then { b with phase := 0, timer := 0 } else b
    (b, arrs)
  else (b, [])

/-- Boss block of `update`: runs only for a present, living boss; appends the
spawned projectiles and applies contact knockback to the player. -/
def bossStage (lv : Level) (p : Player) (dt : ℚ) : Level × Player :=
  match lv.boss with
  | some b =>
    if b.alive then
      let r := bossPhaseStep lv.platforms p.x dt b
      let b2 := r.1
      let p2 := if aabb b2.rect p.rect then
          { p with vx := if p.x < b2.x then -(3/2) else 3/2, vy := -3 }
        else p
      ({ lv with boss := some b2, arrows := lv.arrows ++ r.2 }, p2)
    else (lv, p)
  | none => (lv, p)

/-- Stages of `update` through the enemy-AI loop: tick, platform motion, input, fire,
gravity, crouch height, player integration/collision, camera, enemy AI. -/
def stagesToEnemies (lv : Level) (p : Player) (k : Keys) (t dt : ℚ) :
    Level × Player :=
  let lv1 := { lv with tick := lv.tick + 1,
                       platforms := lv.platforms.map (movePlatform dt) }
  let p1 := inputStage p k
  let fr := fireStage p1 k.fire t
  let lv2 := { lv1 with projs := lv1.projs ++ fr.2 }
  let p2 := { fr.1 with vy := clamp (fr.1.vy + GRAVITY * dt) (-999) MAX_FALL }
  let p3 := crouchHeight p2
  let p4 := p3.fromBody (moveAndCollide dt p3.toBody lv2.platforms)
  let lv3 := { lv2 with
    cameraX := clamp (p4.x - BASE_W / 2 + p4.w / 2) 0 (lv2.worldW - BASE_W) }
  let en := enemiesStage lv3.enemies p4 lv3.platforms dt
  ({ lv3 with enemies := en.2.2, arrows := lv3.arrows ++ en.2.1 }, en.1)

/-- Stages of `update` through the fireball-collision block: projectile integration and
culling (before hit resolution, as in the source), then fireball hits. -/
def stagesToCombat (lv : Level) (p : Player) (k : Keys) (t dt : ℚ) :
    Level × Player :=
  let s := stagesToEnemies lv p k t dt
  let lv1 := { s.1 with
    projs := (s.1.projs.map (integ dt)).filter (keepProj s.1.worldW),
    arrows := (s.1.arrows.map (integ dt)).filter (keepProj s.1.worldW) }
  let r := fireballStage lv1.projs lv1.enemies lv1.boss
  ({ lv1 with projs := r.1, enemies := r.2.1, boss := r.2.2 }, s.2)

/-- The full per-tick `update`. -/
def update (lv : Level) (p : Player) (k : Keys) (t dt : ℚ) : Level × Player :=
  let s := stagesToCombat lv p k t dt
  let a := arrowsPlayerStage s.2 s.1.arrows
  bossStage { s.1 with arrows := a.2 } a.1 dt

/-- The hostile projectiles the boss block appends this tick (empty for an
absent or dead boss). -/
def bossTickSpawns (lv : Level) (p : Player) (dt : ℚ) : List Projectile :=
  match lv.boss with
  | some b => if b.alive then (bossPhaseStep lv.platforms p.x dt b).2 else []
  | none => []

/-- Iterated boss ticks: runs `bossPhaseStep` `n` times from `b`, collecting
every spawned projectile in order. -/
def bossRun (ps : List Platform) (px dt : ℚ) (b : Boss) : ℕ → Boss × List Projectile
  | 0 => (b, [])
  | n + 1 =>
    let r := bossRun ps px dt b n
    let s := bossPhaseStep ps px dt r.1
    (s.1, r.2 ++ s.2)

/-! Concrete scenario data used by the counterexamples and witnesses. -/

/-- All-keys-up input snapshot. -/
def keys0 : Keys := ⟨false, false, false, false, false, false, false⟩

/-- A freshly spawned player standing far away from the staged collisions. -/
def pFar : Player := ⟨1000, 0, 8, 12, 0, 0, 1, false, false, 0, 0⟩

/-- A stationary living swordsman at (50, 50). -/
def eC1 : Enemy :=
  { x := 50, y := 50, w := 10, h := 14, alive := true, kind := .swordsman,
    dir := 1, minX := 0, maxX := 100, speed := 0 }

/-- A stationary friendly projectile overlapping `eC1`, 5 ticks of life left. -/
def prC1 : Projectile := ⟨50, 50, 4, 3, 0, 0, 5, true⟩

/-- Level staging `prC1` overlapping `eC1`; no platforms, no boss. -/
def lvC1 : Level :=
  { platforms := [], enemies := [eC1], arrows := [], projs := [prC1],
    gem := ⟨0, 0, 0, 0⟩, boss := none, cameraX := 0, worldW := 520,
    worldH := 144, tick := 0 }

/-- First of two living enemies overlapping `prC1`. -/
def eC2a : Enemy :=
  { x := 48, y := 50, w := 10, h := 14, alive := true, kind := .swordsman,
    dir := 1, minX := 0, maxX := 100, speed := 0 }

/-- Second of two living enemies overlapping `prC1`. -/
def eC2b : Enemy :=
  { x := 52, y := 50, w := 10, h := 14, alive := true, kind := .swordsman,
    dir := 1, minX := 0, maxX := 100, speed := 0 }

/-- A living boss (3 hp, phase 1) whose box also overlaps `prC1`. -/
def bossC2 : Boss := ⟨50, 48, 18, 20, 3, true, 1, 5, 0, 0, true⟩

/-- Level staging one friendly projectile over two living enemies and the
living boss at once. -/
def lvC2 : Level :=
  { platforms := [], enemies := [eC2a, eC2b], arrows := [], projs := [prC1],
    gem := ⟨0, 0, 0, 0⟩, boss := some bossC2, cameraX := 0, worldW := 520,
    worldH := 144, tick := 0 }

/-- A body moving right at 5 units per tick. -/
def bC3 : MBody := ⟨0, 0, 8, 12, 5, 0, false, false⟩

/-- Platform hit first by `bC3` in list order. -/
def p1C3 : Platform := { x := 10, y := 0, w := 4, h := 12 }

/-- Second platform, overlapping `bC3` after it is clamped against `p1C3`. -/
def p2C3 : Platform := { x := 3, y := 0, w := 4, h := 12 }

/-- An entity box whose feet are at y = 114. -/
def aC4 : Rect := ⟨0, 100, 10, 14⟩

/-- A platform whose top edge (105) lies between `aC4`'s top (100) and its
feet (114). -/
def plC4 : Platform := { x := 0, y := 105, w := 20, h := 5 }

/-- An enemy with box `aC4`, used to witness the ground snap. -/
def eC4w : Enemy :=
  { x := 0, y := 100, w := 10, h := 14, alive := true, kind := .swordsman,
    dir := 1, minX := 0, maxX := 100, speed := 0 }

/-- A rightward-flying arrow overlapping `pFar`'s box. -/
def arW : Projectile := ⟨996, 4, 5, 2, 8/5, 0, 100, false⟩

/-- The boss of the boss level (source `levelBoss`), reset to phase 1. -/
def bJ1 : Boss := ⟨550, 90, 18, 20, 3, true, 1, 0, 0, 0, true⟩

/-- The player `pFar` put into crouch (used by the C10 witness). -/
def pCrouch : Player := { pFar with crouch := true }

/-- Whether the boss branch of the fireball-collision block fires for
projectile `pr`: boss present, alive, and overlapping. -/
def bossHitBy (pr : Projectile) (ob : Option Boss) : Bool :=
  match ob with
  | some b => if b.alive ∧ aabb pr.rect b.rect then true else false
  | none => false

/-- C10: the crouch height change is asymmetric about the feet: entering
crouch (height 12 → 8) shifts `y` down by the delta so the bottom edge
`y + h` is preserved; leaving crouch (height 8 → 12) leaves `y` unchanged,
so the bottom edge moves down by 4 on the stand-up tick. -/
theorem crouch_height_asymmetric (p : Player) :
    (p.h = 12 → p.crouch = true →
      crouchHeight p = { p with h := 8, y := p.y + 4 } ∧
      (crouchHeight p).y + (crouchHeight p).h = p.y + p.h) ∧
    (p.h = 8 → p.crouch = false →
      crouchHeight p = { p with h := 12 } ∧
      (crouchHeight p).y + (crouchHeight p).h = p.y + p.h + 4) := by
  constructor
  · intro hh hc
    have h1 : crouchHeight p = { p with h := 8, y := p.y + 4 } := by
      simp only [crouchHeight, hc, if_true, hh]
      norm_num
    refine ⟨h1, ?_⟩
    rw [h1, hh]
    ring
  · intro hh hc
    have h1 : crouchHeight p = { p with h := 12 } := by
      simp only [crouchHeight, hc, if_false, hh]
      norm_num
    refine ⟨h1, ?_⟩
    rw [h1, hh]
    ring

/-- Witness for C10 at the concrete player `pCrouch`. -/
theorem crouch_height_asymmetric_witness :
    crouchHeight pCrouch = { pCrouch with h := 8, y := pCrouch.y + 4 } ∧
      (crouchHeight pCrouch).y + (crouchHeight pCrouch).h
        = pCrouch.y + pCrouch.h :=
  (crouch_height_asymmetric pCrouch).1 rfl rfl

/-- C9: the simulation core is deterministic — `update` is a pure function of
the level, player, key snapshot, clock and frame scale, so equal inputs give
equal resulting level and player states. -/
theorem update_deterministic (lv1 lv2 : Level) (p1 p2 : Player) (k1 k2 : Keys)
    (t1 t2 dt1 dt2 : ℚ) (hl : lv1 = lv2) (hp : p1 = p2) (hk : k1 = k2)
    (ht : t1 = t2) (hd : dt1 = dt2) :
    update lv1 p1 k1 t1 dt1 = update lv2 p2 k2 t2 dt2 := by
  subst hl hp hk ht hd
  rfl

/-- Witness for C9 at a concrete level and player. -/
theorem update_deterministic_witness :
    update lvC1 pFar keys0 0 1 = update lvC1 pFar keys0 0 1 :=
  update_deterministic lvC1 lvC1 pFar pFar keys0 keys0 0 0 1 1 rfl rfl rfl rfl rfl

/-- C7: a hostile projectile overlapping the player knocks the player back
(horizontal velocity opposite the arrow's travel direction, fixed upward
velocity) unless the player is crouching and the arrow's vertical midpoint is
above the head line at the player's top edge plus 4; a standing player is
always knocked back. -/
theorem arrow_player_knockback (p : Player) (acc : List Projectile)
    (ar : Projectile) (hov : aabb ar.rect p.rect = true) :
    (p.crouch = true → ar.y + ar.h / 2 < p.y + 4 →
      (arrowHitStep (p, acc) ar).1 = p) ∧
    (p.crouch = true → ¬(ar.y + ar.h / 2 < p.y + 4) →
      (arrowHitStep (p, acc) ar).1
        = { p with vx := -(msign ar.vx) * (8/5), vy := -(5/2) }) ∧
    (p.crouch = false →
      (arrowHitStep (p, acc) ar).1
        = { p with vx := -(msign ar.vx) * (8/5), vy := -(5/2) }) := by
  refine ⟨?_, ?_, ?_⟩
  · intro hc hmid
    simp [arrowHitStep, hov, hc, hmid]
  · intro hc hmid
    simp [arrowHitStep, hov, hc, hmid]
  · intro hc
    simp [arrowHitStep, hov, hc]

/-- Witness for C7: the standing player `pFar` overlapped by arrow `arW` is
knocked back. -/
theorem arrow_player_knockback_witness :
    (arrowHitStep (pFar, []) arW).1
      = { pFar with vx := -(msign arW.vx) * (8/5), vy := -(5/2) } :=
  (arrow_player_knockback pFar [] arW
    (by norm_num [aabb, arW, pFar, Projectile.rect, Player.rect])).2.2 rfl

/-- C6: a friendly projectile is spawned iff the fire input is held and the
clock has reached the player's next-allowed-fire time; on spawn that time
becomes `t + 5000`, so a successful attempt at `t0` and another at
`t0 + 4999` produce exactly one projectile while a further attempt at
`t0 + 5000` succeeds, and any two spawns are at least 5000 ms apart. -/
theorem fire_cooldown (p : Player) (f : Bool) (t : ℚ) :
    ((fireStage p f t).2 ≠ [] ↔ (f = true ∧ t ≥ p.canFireAt)) ∧
    (f = true → t ≥ p.canFireAt →
      fireStage p f t = ({ p with canFireAt := t + 5000 }, [fireball p])) ∧
    (∀ t2, f = true → t ≥ p.canFireAt → t2 < t + 5000 →
      (fireStage (fireStage p f t).1 f t2).2 = []) ∧
    (∀ t2, f = true → t ≥ p.canFireAt → t + 5000 ≤ t2 →
      (fireStage (fireStage p f t).1 f t2).2
        = [fireball (fireStage p f t).1]) ∧
    (t ≥ p.canFireAt →
      (fireStage p true t).2.length = 1 ∧
      (fireStage (fireStage p true t).1 true (t + 4999)).2.length = 0 ∧
      (fireStage (fireStage (fireStage p true t).1 true (t + 4999)).1 true
          (t + 5000)).2.length = 1) := by
  refine ⟨?_, ?_, ?_, ?_, ?_⟩
  · by_cases hcond : f = true ∧ t ≥ p.canFireAt
    · simp [fireStage, hcond]
    · simp only [fireStage, if_neg hcond]
      simp
      exact fun hf => lt_of_not_le fun hge => hcond ⟨hf, hge⟩
  · intro hf hge
    simp [fireStage, hf, hge]
  · intro t2 hf hge hlt
    have h1 : fireStage p f t = ({ p with canFireAt := t + 5000 }, [fireball p]) := by
      simp [fireStage, hf, hge]
    rw [h1]
    simp only [fireStage]
    split_ifs with h
    · exfalso
      have h2 := h.2
      simp only [ge_iff_le] at h2
      linarith
    · rfl
  · intro t2 hf hge hle
    have h1 : fireStage p f t = ({ p with canFireAt := t + 5000 }, [fireball p]) := by
      simp [fireStage, hf, hge]
    rw [h1]
    simp only [fireStage]
    split_ifs with h
    · rfl
    · exact absurd ⟨hf, hle⟩ h
  · intro hge
    have h1 : fireStage p true t = ({ p with canFireAt := t + 5000 }, [fireball p]) := by
      simp [fireStage, hge]
    have h2 : fireStage (fireStage p true t).1 true (t + 4999)
        = ((fireStage p true t).1, []) := by
      rw [h1]
      simp only [fireStage]
      split_ifs with h
      · exfalso
        have h3 := h.2
        simp only [ge_iff_le] at h3
        linarith
      · rfl
    refine ⟨by rw [h1]; rfl, by rw [h2]; rfl, ?_⟩
    rw [h2, h1]
    simp only [fireStage]
    split_ifs with h
    · rfl
    · exact absurd ⟨by trivial, by linarith⟩ h

/-- Witness for C6: the cooldown scenario at `t0 = 10` for the fresh player
`pFar` (next-allowed-fire time 0). -/
theorem fire_cooldown_witness :
    (fireStage pFar true 10).2.length = 1 ∧
    (fireStage (fireStage pFar true 10).1 true (10 + 4999)).2.length = 0 ∧
    (fireStage (fireStage (fireStage pFar true 10).1 true (10 + 4999)).1 true
        (10 + 5000)).2.length = 1 :=
  (fire_cooldown pFar true 10).2.2.2.2 (by norm_num [pFar])

/-- C3 (amended): after an axis pass of `moveAndCollide` against a single
platform, a body with nonzero velocity on that axis no longer overlaps the
platform; with several simultaneously overlapping platforms (or zero axis
velocity) overlap can remain, because resolution against the first platform
zeroes the velocity and later platforms are then not displaced. -/
theorem axis_pass_single_platform (b : MBody) (pl : Platform) (dt : ℚ) :
    (b.vx ≠ 0 → aabb (moveH dt b [pl]).rect pl.rect = false) ∧
    (b.vy ≠ 0 → aabb (moveV dt b [pl]).rect pl.rect = false) := by
  constructor
  · intro hvx
    simp only [moveH, List.foldl_cons, List.foldl_nil, collideH1]
    by_cases hov :
        aabb (MBody.rect { b with x := b.x + b.vx * dt }) pl.rect = true
    · rw [if_pos hov]
      rcases lt_trichotomy b.vx 0 with hneg | hzero | hpos
      · rw [if_neg (by simp only [not_lt]; exact le_of_lt hneg), if_pos hneg]
        simp only [aabb, MBody.rect, Platform.rect]
        rw [if_pos]
        right
        left
        simp
      · exact absurd hzero hvx
      · rw [if_pos hpos]
        simp only [aabb, MBody.rect, Platform.rect]
        rw [if_pos]
        left
        simp
    · rw [if_neg hov]
      exact Bool.not_eq_true _ ▸ (Bool.eq_false_iff.mpr hov)
  · intro hvy
    simp only [moveV, List.foldl_cons, List.foldl_nil, collideV1]
    by_cases hov :
        aabb
          (MBody.rect { b with onGround := false, grounded := false, y := b.y + b.vy * dt })
          pl.rect = true
    · rw [if_pos hov]
      rcases lt_trichotomy b.vy 0 with hneg | hzero | hpos
      · rw [if_neg (by simp only [not_lt]; exact le_of_lt hneg), if_pos hneg]
        simp only [aabb, MBody.rect, Platform.rect]
        rw [if_pos]
        right
        right
        right
        simp
      · exact absurd hzero hvy
      · rw [if_pos hpos]
        simp only [aabb, MBody.rect, Platform.rect]
        rw [if_pos]
        right
        right
        left
        simp
    · rw [if_neg hov]
      exact Bool.not_eq_true _ ▸ (Bool.eq_false_iff.mpr hov)

/-- C3 counterexample: with two platforms overlapping the moved body, the
horizontal pass clamps against the first platform, zeroes `vx`, and then
leaves the body still overlapping the second platform — so the claimed
post-condition fails for multi-platform overlap. -/
theorem axis_pass_overlap_counterexample :
    aabb (moveH 1 bC3 [p1C3, p2C3]).rect p2C3.rect = true := by
  norm_num [moveH, collideH1, aabb, MBody.rect, Platform.rect, bC3, p1C3,
    p2C3, List.foldl]

/-- Witness for C3 at the concrete body `bC3` (velocity 5) and platform
`p1C3`. -/
theorem axis_pass_single_platform_witness :
    aabb (moveH 1 bC3 [p1C3]).rect p1C3.rect = false :=
  (axis_pass_single_platform bC3 p1C3 1).1 (by norm_num [bC3])

/-- Case analysis for one `findGroundBelow` loop iteration. -/
theorem fgbStep_cases (a : Rect) (acc : Option Platform) (p : Platform) :
    (fgbStep a acc p = some p ∧ groundCandidate a p = true ∧
      ∀ b, acc = some b → p.y < b.y) ∨
    (fgbStep a acc p = acc ∧ (groundCandidate a p = false ∨
      ∃ b, acc = some b ∧ b.y ≤ p.y)) := by
  unfold fgbStep groundCandidate
  by_cases h1 : a.x + a.w > p.x ∧ a.x < p.x + p.w
  · rw [if_pos h1]
    cases acc with
    | none =>
      by_cases h2 : p.y ≥ a.y
      · left
        refine ⟨by rw [if_pos h2], by rw [if_pos ⟨h1, h2⟩], ?_⟩
        intro b hb
        exact absurd hb (by simp)
      · right
        refine ⟨by rw [if_neg h2], Or.inl ?_⟩
        rw [if_neg]
        intro hc
        exact h2 hc.2
    | some b =>
      by_cases h2 : p.y ≥ a.y ∧ p.y < b.y
      · left
        refine ⟨?_, by rw [if_pos ⟨h1, h2.1⟩], ?_⟩
        · show (if p.y ≥ a.y ∧ p.y < b.y then some p else some b) = some p
          rw [if_pos h2]
        · intro b2 hb2
          cases hb2
          exact h2.2
      · right
        refine ⟨?_, ?_⟩
        · show (if p.y ≥ a.y ∧ p.y < b.y then some p else some b) = some b
          rw [if_neg h2]
        by_cases h3 : p.y ≥ a.y
        · right
          refine ⟨b, rfl, ?_⟩
          have h4 : ¬p.y < b.y := fun hlt => h2 ⟨h3, hlt⟩
          exact le_of_not_lt h4
        · left
          rw [if_neg]
          intro hc
          exact h3 hc.2
  · rw [if_neg h1]
    right
    refine ⟨rfl, Or.inl ?_⟩
    rw [if_neg]
    intro hc
    exact h1 hc.1

/-- Fold invariant for `findGroundBelow`: a `some` result is a candidate from
the list (or the accumulator), and its top edge is minimal among the
accumulator and every candidate of the list. -/
theorem fgb_fold_some (a : Rect) :
    ∀ (ps : List Platform) (acc : Option Platform) (g : Platform),
      ps.foldl (fgbStep a) acc = some g →
      ((g ∈ ps ∧ groundCandidate a g = true) ∨ acc = some g) ∧
      (∀ b, acc = some b → g.y ≤ b.y) ∧
      (∀ p ∈ ps, groundCandidate a p = true → g.y ≤ p.y) := by
  intro ps
  induction ps with
  | nil =>
    intro acc g h
    simp only [List.foldl_nil] at h
    exact ⟨Or.inr h, fun b hb => by rw [h] at hb; cases hb; exact le_refl _,
      by simp⟩
  | cons p tl ih =>
    intro acc g h
    rw [List.foldl_cons] at h
    rcases fgbStep_cases a acc p with ⟨hs, hcand, hlt⟩ | ⟨hs, hrest⟩
    · rw [hs] at h
      obtain ⟨hmem, hminacc, hmintl⟩ := ih (some p) g h
      have hgyp : g.y ≤ p.y := hminacc p rfl
      refine ⟨?_, ?_, ?_⟩
      · rcases hmem with ⟨hgtl, hgc⟩ | hgp
        · exact Or.inl ⟨List.mem_cons_of_mem _ hgtl, hgc⟩
        · cases hgp
          exact Or.inl ⟨List.mem_cons_self _ _, hcand⟩
      · intro b hb
        exact le_of_lt (lt_of_le_of_lt hgyp (hlt b hb))
      · intro q hq hqc
        rcases List.mem_cons.mp hq with rfl | hqtl
        · exact hgyp
        · exact hmintl q hqtl hqc
    · rw [hs] at h
      obtain ⟨hmem, hminacc, hmintl⟩ := ih acc g h
      refine ⟨?_, hminacc, ?_⟩
      · rcases hmem with ⟨hgtl, hgc⟩ | hgacc
        · exact Or.inl ⟨List.mem_cons_of_mem _ hgtl, hgc⟩
        · exact Or.inr hgacc
      · intro q hq hqc
        rcases List.mem_cons.mp hq with rfl | hqtl
        · rcases hrest with hfalse | ⟨b, hb, hby⟩
          · rw [hqc] at hfalse
            cases hfalse
          · exact le_trans (hminacc b hb) hby
        · exact hmintl q hqtl hqc

/-- Fold invariant for `findGroundBelow`, `none` direction: a `none` result
means the accumulator was `none` and no list element is a candidate. -/
theorem fgb_fold_none (a : Rect) :
    ∀ (ps : List Platform) (acc : Option Platform),
      ps.foldl (fgbStep a) acc = none →
      acc = none ∧ ∀ p ∈ ps, groundCandidate a p = false := by
  intro ps
  induction ps with
  | nil =>
    intro acc h
    simp only [List.foldl_nil] at h
    exact ⟨h, by simp⟩
  | cons p tl ih =>
    intro acc h
    rw [List.foldl_cons] at h
    rcases fgbStep_cases a acc p with ⟨hs, _, _⟩ | ⟨hs, hrest⟩
    · rw [hs] at h
      obtain ⟨hcontra, _⟩ := ih (some p) h
      cases hcontra
    · rw [hs] at h
      obtain ⟨hacc, htl⟩ := ih acc h
      refine ⟨hacc, ?_⟩
      intro q hq
      rcases List.mem_cons.mp hq with rfl | hqtl
      · rcases hrest with hfalse | ⟨b, hb, _⟩
        · exact hfalse
        · rw [hacc] at hb
          cases hb
      · exact htl q hqtl

/-- If no list element is a candidate, the `findGroundBelow` fold returns its
accumulator unchanged. -/
theorem fgb_fold_skip (a : Rect) :
    ∀ (ps : List Platform) (acc : Option Platform),
      (∀ p ∈ ps, groundCandidate a p = false) →
      ps.foldl (fgbStep a) acc = acc := by
  intro ps
  induction ps with
  | nil => intro acc _; rfl
  | cons p tl ih =>
    intro acc hall
    rw [List.foldl_cons]
    rcases fgbStep_cases a acc p with ⟨_, hcand, _⟩ | ⟨hs, _⟩
    · have := hall p (List.mem_cons_self _ _)
      rw [hcand] at this
      cases this
    · rw [hs]
      exact ih acc fun q hq => hall q (List.mem_cons_of_mem _ hq)

/-- C4 (amended): the ground-snap query returns the highest platform (smallest
top-edge `y`) among those whose horizontal span strictly overlaps the
entity's and whose top edge is at or below the entity's TOP edge `y` (the
source compares `p.y >= a.y`, not the feet `a.y + a.h`); the enemy is snapped
so its bottom edge rests exactly on that platform's top edge, and with no
such platform its `y` is unchanged. -/
theorem find_ground_characterization :
    (∀ (a : Rect) (ps : List Platform) (g : Platform),
      findGroundBelow a ps = some g →
      g ∈ ps ∧ groundCandidate a g = true ∧
        ∀ p ∈ ps, groundCandidate a p = true → g.y ≤ p.y) ∧
    (∀ (a : Rect) (ps : List Platform),
      findGroundBelow a ps = none ↔ ∀ p ∈ ps, groundCandidate a p = false) ∧
    (∀ (e : Enemy) (ps : List Platform) (g : Platform),
      findGroundBelow e.rect ps = some g →
      (snapToGround e ps).y + (snapToGround e ps).h = g.y) ∧
    (∀ (e : Enemy) (ps : List Platform),
      findGroundBelow e.rect ps = none → snapToGround e ps = e) := by
  refine ⟨?_, ?_, ?_, ?_⟩
  · intro a ps g h
    obtain ⟨hmem, _, hmin⟩ := fgb_fold_some a ps none g h
    rcases hmem with ⟨hg, hgc⟩ | hcontra
    · exact ⟨hg, hgc, hmin⟩
    · cases hcontra
  · intro a ps
    constructor
    · intro h
      exact (fgb_fold_none a ps none h).2
    · intro hall
      exact fgb_fold_skip a ps none hall
  · intro e ps g h
    simp only [snapToGround, h]
    ring
  · intro e ps h
    simp only [snapToGround, h]

/-- C4 counterexample: `plC4`'s top edge (105) is strictly above `aC4`'s feet
(114), so under the claim it is not an eligible ground platform — yet
`findGroundBelow` returns it, because the source compares against the top
edge. -/
theorem find_ground_above_feet_counterexample :
    findGroundBelow aC4 [plC4] = some plC4 ∧ plC4.y < aC4.y + aC4.h := by
  constructor
  · norm_num [findGroundBelow, fgbStep, aC4, plC4, List.foldl]
  · norm_num [aC4, plC4]

/-- Witness for C4: the snap of `eC4w` onto `plC4`. -/
theorem find_ground_characterization_witness :
    (snapToGround eC4w [plC4]).y + (snapToGround eC4w [plC4]).h = plC4.y :=
  find_ground_characterization.2.2.1 eC4w [plC4] plC4
    (by norm_num [findGroundBelow, fgbStep, Enemy.rect, eC4w, plC4, List.foldl])

/-- The enemy loop of the fireball-collision block, in closed form: every
living enemy overlapping `pr` is marked dead (the loop has no break), the
rest are unchanged, and the projectile's lifetime is zeroed iff some living
enemy overlaps. -/
theorem fb_enemies_fold :
    ∀ (es : List Enemy) (pr : Projectile) (acc : List Enemy),
      es.foldl fbEnemyStep (pr, acc) =
        (if es.any (fun e => e.alive && aabb pr.rect e.rect) then
           { pr with life := 0 } else pr,
         acc ++ es.map (fun e =>
           if e.alive && aabb pr.rect e.rect then { e with alive := false }
           else e)) := by
  intro es
  induction es with
  | nil => intro pr acc; simp
  | cons e tl ih =>
    intro pr acc
    rw [List.foldl_cons]
    by_cases he : e.alive = true
    · by_cases hov : aabb pr.rect e.rect = true
      · have hstep : fbEnemyStep (pr, acc) e
            = ({ pr with life := 0 }, acc ++ [{ e with alive := false }]) := by
          simp [fbEnemyStep, he, hov]
        rw [hstep, ih]
        have hrect : ({ pr with life := 0 } : Projectile).rect = pr.rect := rfl
        simp [hrect, he, hov]
      · have hstep : fbEnemyStep (pr, acc) e = (pr, acc ++ [e]) := by
          simp [fbEnemyStep, he, hov]
        rw [hstep, ih]
        simp [he, hov]
    · have hstep : fbEnemyStep (pr, acc) e = (pr, acc ++ [e]) := by
        simp [fbEnemyStep, he]
      rw [hstep, ih]
      simp [he]

/-- C2 (amended): for a friendly projectile the hit loop does NOT stop at the
first match: every living overlapping enemy is killed, and the boss test runs
afterwards regardless, so the same projectile can kill several enemies and
also decrement the boss's hit points in the same tick; its lifetime is zeroed
iff any enemy or boss hit occurred. -/
theorem fireball_hits_all_overlaps (pr : Projectile) (es : List Enemy)
    (ob : Option Boss) (hf : pr.friendly = true) :
    (fireballStage [pr] es ob).2.1
      = es.map (fun e =>
          if e.alive && aabb pr.rect e.rect then { e with alive := false }
          else e) ∧
    (∀ b, ob = some b → b.alive = true → aabb pr.rect b.rect = true →
      (fireballStage [pr] es ob).2.2
        = some (if b.hp - 1 ≤ 0 then { b with hp := b.hp - 1, alive := false }
                else { b with hp := b.hp - 1 })) ∧
    (fireballStage [pr] es ob).1
      = [if (es.any (fun e => e.alive && aabb pr.rect e.rect)
            || bossHitBy pr ob) = true then { pr with life := 0 } else pr] := by
  have hstage : fireballStage [pr] es ob
      = ([(fbBossStep (es.foldl fbEnemyStep (pr, [])).1 ob).1],
         (es.foldl fbEnemyStep (pr, [])).2,
         (fbBossStep (es.foldl fbEnemyStep (pr, [])).1 ob).2) := by
    simp [fireballStage, fbStep, hf]
  have henemies := fb_enemies_fold es pr ([] : List Enemy)
  have hA1 : (es.foldl fbEnemyStep (pr, [])).1
      = if es.any (fun e => e.alive && aabb pr.rect e.rect) then
          { pr with life := 0 } else pr := by
    rw [henemies]
  have hA2 : (es.foldl fbEnemyStep (pr, [])).2
      = es.map (fun e =>
          if e.alive && aabb pr.rect e.rect then { e with alive := false }
          else e) := by
    rw [henemies]
    simp
  have hPrect : ((es.foldl fbEnemyStep (pr, [])).1).rect = pr.rect := by
    rw [hA1]
    by_cases hany : es.any (fun e => e.alive && aabb pr.rect e.rect) = true
    · rw [if_pos hany]
      rfl
    · rw [if_neg hany]

  refine ⟨?_, ?_, ?_⟩
  · rw [hstage]
    exact hA2
  · intro b hb hal hov
    subst hb
    rw [hstage]
    show (fbBossStep (es.foldl fbEnemyStep (pr, [])).1 (some b)).2 = _
    simp only [fbBossStep]
    rw [if_pos ⟨hal, by rw [hPrect]; exact hov⟩]
  · rw [hstage]
    show [(fbBossStep (es.foldl fbEnemyStep (pr, [])).1 ob).1] = _
    by_cases hany : es.any (fun e => e.alive && aabb pr.rect e.rect) = true
    · have hA1' : (es.foldl fbEnemyStep (pr, [])).1 = { pr with life := 0 } := by
        rw [hA1, if_pos hany]
      rw [hA1']
      have hX : (fbBossStep { pr with life := 0 } ob).1
          = { pr with life := 0 } := by
        cases ob with
        | none => rfl
        | some b =>
          simp only [fbBossStep]
          split
          · rfl
          · rfl
      rw [hX]
      simp [hany]
    · have hA1' : (es.foldl fbEnemyStep (pr, [])).1 = pr := by
        rw [hA1, if_neg hany]
      rw [hA1']
      cases ob with
      | none =>
        have hX : (fbBossStep pr none).1 = pr := rfl
        rw [hX]
        simp [bossHitBy, hany]
      | some b =>
        by_cases hbh : b.alive = true ∧ aabb pr.rect b.rect = true
        · have hX : (fbBossStep pr (some b)).1 = { pr with life := 0 } := by
            simp only [fbBossStep]
            rw [if_pos ⟨hbh.1, hbh.2⟩]
          rw [hX]
          have hB : bossHitBy pr (some b) = true := by
            simp only [bossHitBy]
            rw [if_pos ⟨hbh.1, hbh.2⟩]
          rw [hB]
          simp
        · have hX : (fbBossStep pr (some b)).1 = pr := by
            simp only [fbBossStep]
            rw [if_neg (by exact hbh)]
          rw [hX]
          have hB : bossHitBy pr (some b) = false := by
            simp only [bossHitBy]
            rw [if_neg (by exact hbh)]
          rw [hB]
          simp [hany]

/-- C2 counterexample: one friendly projectile overlapping two living enemies
and the living boss kills BOTH enemies and decrements the boss's hit points
in the same tick — an enemy hit and a boss hit by the same projectile do both
occur. -/
theorem fireball_pierces_counterexample :
    ((update lvC2 pFar keys0 0 1).1.enemies.map (fun e => e.alive))
        = [false, false] ∧
      ((update lvC2 pFar keys0 0 1).1.boss.map (fun b => b.hp)) = some 2 := by
  constructor <;>
    norm_num [update, stagesToCombat, stagesToEnemies, inputStage, fireStage,
      crouchHeight, Player.toBody, Player.fromBody, moveAndCollide, moveH,
      moveV, collideH1, collideV1, aabb, clamp, enemiesStage, enemyStep,
      snapToGround, findGroundBelow, fgbStep, integ, keepProj, fireballStage,
      fbStep, fbEnemyStep, fbBossStep, arrowsPlayerStage, arrowHitStep,
      bossStage, bossPhaseStep, bossIntegrate, shockwaveArrows, volleyArrow,
      movePlatform, GRAVITY, MOVE_SPEED, JUMP_VEL, MAX_FALL, BASE_W, msign,
      Enemy.rect, Player.rect, Projectile.rect, MBody.rect, Platform.rect,
      Boss.rect, Boss.toBody, Boss.fromBody, lvC2, pFar, keys0, eC2a, eC2b,
      bossC2, prC1, List.foldl, Option.map]

/-- Witness for C2 at the single enemy `eC2a` and projectile `prC1`. -/
theorem fireball_hits_all_overlaps_witness :
    (fireballStage [prC1] [eC2a] none).2.1
      = [eC2a].map (fun e =>
          if e.alive && aabb prC1.rect e.rect then { e with alive := false }
          else e) :=
  (fireball_hits_all_overlaps prC1 [eC2a] none rfl).1

/-- Integration only touches the physics fields of the boss: phase, timer, hp and
alive pass through. -/
theorem bossIntegrate_keeps (b : Boss) (ps : List Platform) (dt : ℚ) :
    (bossIntegrate b ps dt).phase = b.phase ∧
    (bossIntegrate b ps dt).timer = b.timer ∧
    (bossIntegrate b ps dt).hp = b.hp ∧
    (bossIntegrate b ps dt).alive = b.alive :=
  ⟨rfl, rfl, rfl, rfl⟩

/-- Closed form of a phase-0 boss tick: the integrated boss keeps phase 0 and
the incremented timer, and the transition to phase 1 (timer reset) happens
exactly when it is grounded after integration with timer above 90; nothing is
spawned. -/
theorem phase0_spec (ps : List Platform) (px dt : ℚ) (b : Boss)
    (h : b.phase = 0) :
    ∃ bi : Boss, bi.phase = 0 ∧ bi.timer = b.timer + 1 ∧
      bossPhaseStep ps px dt b =
        (if bi.grounded = true ∧ bi.timer > 90 then
          { bi with phase := 1, timer := 0 } else bi, []) := by
  refine ⟨bossIntegrate
    (if b.timer + 1 = 1 then
      { b with timer := b.timer + 1,
               vx := if px < b.x then -(6/5) else 6/5, vy := -(9/2) }
     else { b with timer := b.timer + 1 }) ps dt, ?_, ?_, ?_⟩
  · have hphase : ∀ X : Boss, (bossIntegrate X ps dt).phase = X.phase :=
      fun _ => rfl
    rw [hphase]
    split
    · exact h
    · exact h
  · have htimer : ∀ X : Boss, (bossIntegrate X ps dt).timer = X.timer :=
      fun _ => rfl
    rw [htimer]
    split
    · rfl
    · rfl
  · simp only [bossPhaseStep]
    rw [if_pos h]

/-- Closed form of a phase-1 boss tick: the two shockwave projectiles are
spawned exactly on the tick that brings the timer to 1, and the phase becomes
2 with timer reset exactly when the timer passes 100. -/
theorem phase1_spec (ps : List Platform) (px dt : ℚ) (b : Boss)
    (h : b.phase = 1) :
    bossPhaseStep ps px dt b =
      (if b.timer + 1 > 100 then { b with phase := 2, timer := 0 }
       else { b with timer := b.timer + 1 },
       if b.timer + 1 = 1 then shockwaveArrows b else []) := by
  have h0 : ¬(b.phase = 0) := by rw [h]; decide
  simp only [bossPhaseStep, h0, if_false, h, if_pos]
  rfl

/-- Closed form of a phase-2 boss tick: one volley projectile aimed toward
the player's side is spawned exactly on the ticks that bring the timer to 1,
30 or 60, and the phase returns to 0 with timer reset exactly when the timer
passes 100. -/
theorem phase2_spec (ps : List Platform) (px dt : ℚ) (b : Boss)
    (h : b.phase = 2) :
    bossPhaseStep ps px dt b =
      (if b.timer + 1 > 100 then { b with phase := 0, timer := 0 }
       else { b with timer := b.timer + 1 },
       if b.timer + 1 = 1 ∨ b.timer + 1 = 30 ∨ b.timer + 1 = 60 then
         [volleyArrow b px] else []) := by
  have h0 : ¬(b.phase = 0) := by rw [h]; decide
  have h1 : ¬(b.phase = 1) := by rw [h]; decide
  simp only [bossPhaseStep, h0, if_false, h1, h, if_pos]
  rfl

/-- A boss tick in a phase outside {0, 1, 2} only increments the timer. -/
theorem phase_other_spec (ps : List Platform) (px dt : ℚ) (b : Boss)
    (h0 : ¬(b.phase = 0)) (h1 : ¬(b.phase = 1)) (h2 : ¬(b.phase = 2)) :
    bossPhaseStep ps px dt b = ({ b with timer := b.timer + 1 }, []) := by
  simp only [bossPhaseStep, h0, if_false, h1, h2]

theorem bossRun_zero (ps : List Platform) (px dt : ℚ) (b : Boss) :
    bossRun ps px dt b 0 = (b, []) := rfl

theorem bossRun_succ (ps : List Platform) (px dt : ℚ) (b : Boss) (n : ℕ) :
    bossRun ps px dt b (n + 1)
      = ((bossPhaseStep ps px dt (bossRun ps px dt b n).1).1,
         (bossRun ps px dt b n).2
           ++ (bossPhaseStep ps px dt (bossRun ps px dt b n).1).2) := rfl

/-- Running the boss from phase 2, timer 0: for the first 100 ticks the state
only accumulates the timer, and the number of volley projectiles spawned so
far jumps at relative ticks 1, 30 and 60. -/
theorem phase2_run (ps : List Platform) (px dt : ℚ) (b : Boss)
    (h2 : b.phase = 2) (h0 : b.timer = 0) :
    ∀ n, n ≤ 100 →
      (bossRun ps px dt b n).1 = { b with timer := (n : ℤ) } ∧
      (bossRun ps px dt b n).2.length =
        ((if 1 ≤ n then 1 else 0) + (if 30 ≤ n then 1 else 0) +
          (if 60 ≤ n then 1 else 0)) := by
  intro n
  induction n with
  | zero =>
    intro _
    rw [bossRun_zero]
    constructor
    · have hz : ((0:ℕ) : ℤ) = b.timer := by simp [h0]
      show b = { b with timer := ((0:ℕ) : ℤ) }
      rw [hz]
    · simp
  | succ n ih =>
    intro hle
    obtain ⟨hst, hlen⟩ := ih (le_trans (Nat.le_succ n) hle)
    have hstep := phase2_spec ps px dt { b with timer := (n : ℤ) } h2
    rw [bossRun_succ, hst]
    have hc1 : ¬(({ b with timer := (n : ℤ) } : Boss).timer + 1 > 100) := by
      show ¬((n : ℤ) + 1 > 100)
      omega
    constructor
    · rw [hstep]
      show (if ({ b with timer := (n : ℤ) } : Boss).timer + 1 > 100 then _ else _) = _
      rw [if_neg hc1]
      show ({ b with timer := (n : ℤ) + 1 } : Boss) = _
      have : ((n : ℤ)) + 1 = (((n + 1 : ℕ)) : ℤ) := by push_cast; ring
      rw [this]
    · rw [List.length_append, hlen, hstep]
      show _ + (if ({ b with timer := (n : ℤ) } : Boss).timer + 1 = 1 ∨
          ({ b with timer := (n : ℤ) } : Boss).timer + 1 = 30 ∨
          ({ b with timer := (n : ℤ) } : Boss).timer + 1 = 60 then
            [volleyArrow { b with timer := (n : ℤ) } px] else []).length = _
      by_cases hsp : (n : ℤ) + 1 = 1 ∨ (n : ℤ) + 1 = 30 ∨ (n : ℤ) + 1 = 60
      · rw [if_pos hsp]
        simp only [List.length_singleton]
        rcases hsp with h | h | h <;> (split_ifs <;> omega)
      · rw [if_neg hsp]
        simp only [List.length_nil]
        push_neg at hsp
        split_ifs <;> omega

/-- Running the boss from phase 1, timer 0: for the first 100 ticks only the
timer accumulates. -/
theorem phase1_run (ps : List Platform) (px dt : ℚ) (b : Boss)
    (h1 : b.phase = 1) (h0 : b.timer = 0) :
    ∀ n, n ≤ 100 →
      (bossRun ps px dt b n).1 = { b with timer := (n : ℤ) } := by
  intro n
  induction n with
  | zero =>
    intro _
    rw [bossRun_zero]
    have hz : ((0:ℕ) : ℤ) = b.timer := by simp [h0]
    show b = { b with timer := ((0:ℕ) : ℤ) }
    rw [hz]
  | succ n ih =>
    intro hle
    have hst := ih (le_trans (Nat.le_succ n) hle)
    have hstep := phase1_spec ps px dt { b with timer := (n : ℤ) } h1
    rw [bossRun_succ, hst, hstep]
    have hc1 : ¬(({ b with timer := (n : ℤ) } : Boss).timer + 1 > 100) := by
      show ¬((n : ℤ) + 1 > 100)
      omega
    show (if ({ b with timer := (n : ℤ) } : Boss).timer + 1 > 100 then _ else _) = _
    rw [if_neg hc1]
    show ({ b with timer := (n : ℤ) + 1 } : Boss) = _
    have : ((n : ℤ)) + 1 = (((n + 1 : ℕ)) : ℤ) := by push_cast; ring
    rw [this]

/-- Running the boss from phase 0, timer 0: for the first 90 ticks no
transition can fire (the timer gate needs timer > 90) and nothing spawns. -/
theorem phase0_run (ps : List Platform) (px dt : ℚ) (b : Boss)
    (hp : b.phase = 0) (h0 : b.timer = 0) :
    ∀ n, n ≤ 90 →
      (bossRun ps px dt b n).1.phase = 0 ∧
      (bossRun ps px dt b n).1.timer = (n : ℤ) ∧
      (bossRun ps px dt b n).2 = [] := by
  intro n
  induction n with
  | zero =>
    intro _
    rw [bossRun_zero]
    exact ⟨hp, by simp [h0], rfl⟩
  | succ n ih =>
    intro hle
    obtain ⟨hph, htm, hsp⟩ := ih (le_trans (Nat.le_succ n) hle)
    obtain ⟨bi, hbip, hbit, hbstep⟩ :=
      phase0_spec ps px dt (bossRun ps px dt b n).1 hph
    have hnotr : ¬(bi.grounded = true ∧ bi.timer > 90) := by
      intro hcontra
      rw [hbit, htm] at hcontra
      omega
    rw [bossRun_succ, hbstep]
    simp only [if_neg hnotr]
    refine ⟨hbip, ?_, ?_⟩
    · rw [hbit, htm]
      push_cast
      ring
    · rw [hsp]
      rfl

/-- C5: the boss state machine.  Phase 0 with timer 0 keeps phase 0 for the
first 90 ticks and on tick 91 transitions to phase 1 with timer reset exactly
when grounded (otherwise it stays in phase 0); phase 1 spawns the two
shockwave projectiles exactly on its first tick and moves to phase 2 with
timer reset once the timer passes 100; phase 2 spawns exactly one hostile
projectile aimed toward the player's side on each of its relative ticks 1, 30
and 60 — 3 per cycle — and returns to phase 0 with timer reset once the timer
passes 100. -/
theorem boss_phase_machine :
    (∀ (ps : List Platform) (px dt : ℚ) (b : Boss), b.phase = 0 → b.timer = 0 →
      (∀ n, n ≤ 90 → (bossRun ps px dt b n).1.phase = 0 ∧
        (bossRun ps px dt b n).1.timer = (n : ℤ) ∧
        (bossRun ps px dt b n).2 = []) ∧
      ((bossRun ps px dt b 91).1.grounded = true →
        (bossRun ps px dt b 91).1.phase = 1 ∧
        (bossRun ps px dt b 91).1.timer = 0) ∧
      ((bossRun ps px dt b 91).1.grounded = false →
        (bossRun ps px dt b 91).1.phase = 0 ∧
        (bossRun ps px dt b 91).1.timer = 91)) ∧
    (∀ (ps : List Platform) (px dt : ℚ) (b : Boss), b.phase = 1 →
      bossPhaseStep ps px dt b =
        (if b.timer + 1 > 100 then { b with phase := 2, timer := 0 }
         else { b with timer := b.timer + 1 },
         if b.timer + 1 = 1 then shockwaveArrows b else []) ∧
      (shockwaveArrows b).length = 2) ∧
    (∀ (ps : List Platform) (px dt : ℚ) (b : Boss), b.phase = 1 → b.timer = 0 →
      (bossRun ps px dt b 1).2 = shockwaveArrows b ∧
      (bossRun ps px dt b 101).1.phase = 2 ∧
      (bossRun ps px dt b 101).1.timer = 0) ∧
    (∀ (ps : List Platform) (px dt : ℚ) (b : Boss), b.phase = 2 →
      bossPhaseStep ps px dt b =
        (if b.timer + 1 > 100 then { b with phase := 0, timer := 0 }
         else { b with timer := b.timer + 1 },
         if b.timer + 1 = 1 ∨ b.timer + 1 = 30 ∨ b.timer + 1 = 60 then
           [volleyArrow b px] else [])) ∧
    (∀ (px : ℚ) (b : Boss),
      (volleyArrow b px).vx = (if px < b.x then -(9/5) else 9/5)) ∧
    (∀ (ps : List Platform) (px dt : ℚ) (b : Boss), b.phase = 2 → b.timer = 0 →
      (bossRun ps px dt b 101).1.phase = 0 ∧
      (bossRun ps px dt b 101).1.timer = 0 ∧
      (bossRun ps px dt b 101).2.length = 3 ∧
      (bossRun ps px dt b 1).2.length = 1 ∧
      (bossRun ps px dt b 29).2.length = 1 ∧
      (bossRun ps px dt b 30).2.length = 2 ∧
      (bossRun ps px dt b 59).2.length = 2 ∧
      (bossRun ps px dt b 60).2.length = 3) := by
  refine ⟨?_, ?_, ?_, ?_, ?_, ?_⟩
  · intro ps px dt b hp h0
    refine ⟨phase0_run ps px dt b hp h0, ?_, ?_⟩
    · intro hgr
      obtain ⟨hph, htm, _⟩ := phase0_run ps px dt b hp h0 90 (le_refl 90)
      obtain ⟨bi, hbip, hbit, hbstep⟩ :=
        phase0_spec ps px dt (bossRun ps px dt b 90).1 hph
      have h91 := bossRun_succ ps px dt b 90
      rw [hbstep] at h91
      by_cases hbig : bi.grounded = true ∧ bi.timer > 90
      · rw [if_pos hbig] at h91
        rw [h91]
        exact ⟨rfl, rfl⟩
      · rw [if_neg hbig] at h91
        exfalso
        apply hbig
        constructor
        · rw [h91] at hgr
          exact hgr
        · rw [hbit, htm]
          omega
    · intro hgr
      obtain ⟨hph, htm, _⟩ := phase0_run ps px dt b hp h0 90 (le_refl 90)
      obtain ⟨bi, hbip, hbit, hbstep⟩ :=
        phase0_spec ps px dt (bossRun ps px dt b 90).1 hph
      have h91 := bossRun_succ ps px dt b 90
      rw [hbstep] at h91
      by_cases hbig : bi.grounded = true ∧ bi.timer > 90
      · rw [if_pos hbig] at h91
        exfalso
        rw [h91] at hgr
        have : bi.grounded = true := hbig.1
        simp only [show ((if bi.grounded = true ∧ bi.timer > 90 then
          ({ bi with phase := 1, timer := 0 } : Boss) else bi), ([] : List Projectile)).1.grounded
            = bi.grounded from by rw [if_pos hbig]] at hgr
        rw [this] at hgr
        cases hgr
      · rw [if_neg hbig] at h91
        rw [h91]
        refine ⟨hbip, ?_⟩
        rw [hbit, htm]
        rfl
  · intro ps px dt b h1
    exact ⟨phase1_spec ps px dt b h1, rfl⟩
  · intro ps px dt b h1 h0
    refine ⟨?_, ?_, ?_⟩
    · rw [bossRun_succ, bossRun_zero]
      have hstep := phase1_spec ps px dt b h1
      rw [hstep]
      show ([] : List Projectile) ++ (if b.timer + 1 = 1 then shockwaveArrows b else []) = _
      rw [h0]
      simp
    · have hst := phase1_run ps px dt b h1 h0 100 (le_refl 100)
      have hstep := phase1_spec ps px dt { b with timer := ((100 : ℕ) : ℤ) } h1
      rw [bossRun_succ, hst, hstep]
      have htr : ({ b with timer := ((100 : ℕ) : ℤ) } : Boss).timer + 1 > 100 := by
        show ((100 : ℕ) : ℤ) + 1 > 100
        norm_num
      rw [if_pos htr]
    · have hst := phase1_run ps px dt b h1 h0 100 (le_refl 100)
      have hstep := phase1_spec ps px dt { b with timer := ((100 : ℕ) : ℤ) } h1
      rw [bossRun_succ, hst, hstep]
      have htr : ({ b with timer := ((100 : ℕ) : ℤ) } : Boss).timer + 1 > 100 := by
        show ((100 : ℕ) : ℤ) + 1 > 100
        norm_num
      rw [if_pos htr]
  · intro ps px dt b h2
    exact phase2_spec ps px dt b h2
  · intro px b
    show (if px < b.x then (-1 : ℚ) else 1) * (9/5) = _
    split_ifs with h
    · norm_num
    · norm_num
  · intro ps px dt b h2 h0
    have h100 := phase2_run ps px dt b h2 h0 100 (by omega)
    have hstep := phase2_spec ps px dt { b with timer := ((100 : ℕ) : ℤ) } h2
    have hfin := bossRun_succ ps px dt b 100
    rw [h100.1, hstep] at hfin
    have hnosp : ¬(({ b with timer := ((100 : ℕ) : ℤ) } : Boss).timer + 1 = 1 ∨
        ({ b with timer := ((100 : ℕ) : ℤ) } : Boss).timer + 1 = 30 ∨
        ({ b with timer := ((100 : ℕ) : ℤ) } : Boss).timer + 1 = 60) := by
      show ¬(((100 : ℕ) : ℤ) + 1 = 1 ∨ ((100 : ℕ) : ℤ) + 1 = 30 ∨ ((100 : ℕ) : ℤ) + 1 = 60)
      norm_num
    have htr : (({ b with timer := ((100 : ℕ) : ℤ) } : Boss).timer + 1 > 100) := by
      show ((100 : ℕ) : ℤ) + 1 > 100
      norm_num
    rw [if_pos htr, if_neg hnosp] at hfin
    refine ⟨?_, ?_, ?_, ?_, ?_, ?_, ?_, ?_⟩
    · rw [hfin]
    · rw [hfin]
    · rw [hfin]
      show ((bossRun ps px dt b 100).2 ++ []).length = 3
      rw [List.append_nil]
      rw [h100.2]
      norm_num
    · rw [(phase2_run ps px dt b h2 h0 1 (by omega)).2]
      norm_num
    · rw [(phase2_run ps px dt b h2 h0 29 (by omega)).2]
      norm_num
    · rw [(phase2_run ps px dt b h2 h0 30 (by omega)).2]
      norm_num
    · rw [(phase2_run ps px dt b h2 h0 59 (by omega)).2]
      norm_num
    · rw [(phase2_run ps px dt b h2 h0 60 (by omega)).2]
      norm_num

/-- Witness for C5: one phase-1 cycle of the boss-level boss `bJ1`. -/
theorem boss_phase_machine_witness :
    (bossRun [] 0 1 bJ1 1).2 = shockwaveArrows bJ1 ∧
    (bossRun [] 0 1 bJ1 101).1.phase = 2 ∧
    (bossRun [] 0 1 bJ1 101).1.timer = 0 :=
  boss_phase_machine.2.2.1 [] 0 1 bJ1 rfl rfl

/-- The arrow-vs-player fold threads the arrow list through unchanged. -/
theorem arrows_fold_snd :
    ∀ (ars : List Projectile) (p : Player) (acc : List Projectile),
      (ars.foldl arrowHitStep (p, acc)).2 = acc ++ ars := by
  intro ars
  induction ars with
  | nil => intro p acc; simp
  | cons ar tl ih =>
    intro p acc
    rw [List.foldl_cons]
    have hstep : arrowHitStep (p, acc) ar
        = ((arrowHitStep (p, acc) ar).1, acc ++ [ar]) := rfl
    rw [hstep, ih]
    simp

/-- The arrow-vs-player block returns the hostile collection unchanged. -/
theorem arrowsPlayerStage_snd (p : Player) (ars : List Projectile) :
    (arrowsPlayerStage p ars).2 = ars := by
  unfold arrowsPlayerStage
  rw [arrows_fold_snd]
  simp

/-- The cull predicate in propositional form. -/
theorem keepProj_iff (w : ℚ) (pr : Projectile) :
    keepProj w pr = true ↔ (pr.life > 0 ∧ pr.x > -10 ∧ pr.x < w + 10) := by
  unfold keepProj
  split_ifs with h
  · simp [h]
  · simp [h]

/-- The boss branch of the fireball block returns the projectile unchanged or
with its lifetime zeroed. -/
theorem fbBossStep_fst_or (pr : Projectile) (ob : Option Boss) :
    (fbBossStep pr ob).1 = pr ∨ (fbBossStep pr ob).1 = { pr with life := 0 } := by
  cases ob with
  | none => exact Or.inl rfl
  | some b =>
    by_cases hc : (b.alive = true ∧ aabb pr.rect b.rect = true)
    · refine Or.inr ?_
      simp only [fbBossStep]
      rw [if_pos hc]
    · refine Or.inl ?_
      simp only [fbBossStep]
      rw [if_neg hc]

/-- One projectile's pass appends exactly one entry: the projectile itself or
the projectile with its lifetime zeroed. -/
theorem fbStep_fst_append (st : List Projectile × List Enemy × Option Boss)
    (pr : Projectile) :
    ∃ q, (fbStep st pr).1 = st.1 ++ [q] ∧ (q = pr ∨ q.life = 0) := by
  by_cases hf : pr.friendly = true
  · refine ⟨(fbBossStep (st.2.1.foldl fbEnemyStep (pr, [])).1 st.2.2).1, ?_, ?_⟩
    · simp only [fbStep]
      rw [if_pos hf]
    · have h1 := fb_enemies_fold st.2.1 pr []
      rcases fbBossStep_fst_or (st.2.1.foldl fbEnemyStep (pr, [])).1 st.2.2
        with h2 | h2
      · rw [h2, h1]
        by_cases hany :
            (st.2.1.any fun e => e.alive && aabb pr.rect e.rect) = true
        · right
          rw [if_pos hany]
        · left
          rw [if_neg hany]
      · right
        rw [h2]
  · refine ⟨pr, ?_, Or.inl rfl⟩
    simp only [fbStep]
    rw [if_neg hf]

/-- Lifetimes stay nonnegative through the fireball-collision fold. -/
theorem fireball_fold_life :
    ∀ (prs acc : List Projectile) (es : List Enemy) (ob : Option Boss),
      (∀ x ∈ acc, (0:ℤ) ≤ x.life) → (∀ x ∈ prs, (0:ℤ) ≤ x.life) →
      ∀ q ∈ (prs.foldl fbStep (acc, es, ob)).1, (0:ℤ) ≤ q.life := by
  intro prs
  induction prs with
  | nil =>
    intro acc es ob hacc _ q hq
    simp only [List.foldl_nil] at hq
    exact hacc q hq
  | cons pr tl ih =>
    intro acc es ob hacc hprs q hq
    rw [List.foldl_cons] at hq
    obtain ⟨q0, hq0, hq0or⟩ := fbStep_fst_append (acc, es, ob) pr
    have heta : fbStep (acc, es, ob) pr
        = ((fbStep (acc, es, ob) pr).1, (fbStep (acc, es, ob) pr).2.1,
           (fbStep (acc, es, ob) pr).2.2) := rfl
    rw [heta, hq0] at hq
    refine ih (acc ++ [q0]) _ _ ?_
      (fun x hx => hprs x (List.mem_cons_of_mem _ hx)) q hq
    intro x hx
    rcases List.mem_append.mp hx with hx1 | hx2
    · exact hacc x hx1
    · rw [List.mem_singleton] at hx2
      subst hx2
      rcases hq0or with h | h
      · rw [h]
        exact hprs pr (List.mem_cons_self _ _)
      · rw [h]

/-- The boss block never touches the friendly projectile collection. -/
theorem bossStage_projs (lv : Level) (p : Player) (dt : ℚ) :
    (bossStage lv p dt).1.projs = lv.projs := by
  cases hb : lv.boss with
  | none => simp [bossStage, hb]
  | some b =>
    by_cases hal : b.alive = true
    · simp [bossStage, hb, hal]
    · simp [bossStage, hb, hal]

/-- The boss block appends exactly its spawned projectiles to the hostile
collection. -/
theorem bossStage_arrows (lv : Level) (p : Player) (dt : ℚ) :
    (bossStage lv p dt).1.arrows = lv.arrows ++ bossTickSpawns lv p dt := by
  cases hb : lv.boss with
  | none => simp [bossStage, bossTickSpawns, hb]
  | some b =>
    by_cases hal : b.alive = true
    · simp [bossStage, bossTickSpawns, hb, hal]
    · simp [bossStage, bossTickSpawns, hb, hal]

/-- Every projectile the boss state machine spawns starts with positive
lifetime (90 for shockwaves, 200 for volleys). -/
theorem bossPhaseStep_spawn_life (ps : List Platform) (px dt : ℚ) (b : Boss) :
    ∀ ar ∈ (bossPhaseStep ps px dt b).2, (0:ℤ) < ar.life := by
  by_cases h0 : b.phase = 0
  · obtain ⟨bi, _, _, hstep⟩ := phase0_spec ps px dt b h0
    rw [hstep]
    simp
  · by_cases h1 : b.phase = 1
    · intro ar har
      rw [phase1_spec ps px dt b h1] at har
      have har2 : ar ∈ (if b.timer + 1 = 1 then shockwaveArrows b else []) :=
        har
      by_cases hc : b.timer + 1 = 1
      · rw [if_pos hc] at har2
        simp only [shockwaveArrows, List.mem_cons, List.mem_singleton,
          List.not_mem_nil, or_false] at har2
        rcases har2 with h | h
        · rw [h]
          norm_num
        · rw [h]
          norm_num
      · rw [if_neg hc] at har2
        cases har2
    · by_cases h2 : b.phase = 2
      · intro ar har
        rw [phase2_spec ps px dt b h2] at har
        have har2 : ar ∈ (if b.timer + 1 = 1 ∨ b.timer + 1 = 30 ∨
            b.timer + 1 = 60 then [volleyArrow b px] else []) := har
        by_cases hc : b.timer + 1 = 1 ∨ b.timer + 1 = 30 ∨ b.timer + 1 = 60
        · rw [if_pos hc] at har2
          rw [List.mem_singleton] at har2
          rw [har2]
          norm_num [volleyArrow]
        · rw [if_neg hc] at har2
          cases har2
      · intro ar har
        rw [phase_other_spec ps px dt b h0 h1 h2] at har
        cases har

/-- The boss block's spawned projectiles all have positive lifetime. -/
theorem bossTickSpawns_life (lv : Level) (p : Player) (dt : ℚ) :
    ∀ ar ∈ bossTickSpawns lv p dt, (0:ℤ) < ar.life := by
  intro ar har
  unfold bossTickSpawns at har
  cases hb : lv.boss with
  | none =>
    rw [hb] at har
    cases har
  | some b =>
    rw [hb] at har
    have har2 : ar ∈ (if b.alive = true then
        (bossPhaseStep lv.platforms p.x dt b).2 else []) := har
    by_cases hal : b.alive = true
    · rw [if_pos hal] at har2
      exact bossPhaseStep_spawn_life lv.platforms p.x dt b ar har2
    · rw [if_neg hal] at har2
      cases har2

/-- The combat stages in projection form (all definitional). -/
theorem stagesToCombat_arrows (lv : Level) (p : Player) (k : Keys) (t dt : ℚ) :
    (stagesToCombat lv p k t dt).1.arrows
      = ((stagesToEnemies lv p k t dt).1.arrows.map (integ dt)).filter
          (keepProj (stagesToEnemies lv p k t dt).1.worldW) := rfl

theorem stagesToCombat_projs (lv : Level) (p : Player) (k : Keys) (t dt : ℚ) :
    (stagesToCombat lv p k t dt).1.projs
      = (fireballStage
          (((stagesToEnemies lv p k t dt).1.projs.map (integ dt)).filter
            (keepProj (stagesToEnemies lv p k t dt).1.worldW))
          (stagesToEnemies lv p k t dt).1.enemies
          (stagesToEnemies lv p k t dt).1.boss).1 := rfl

theorem update_eq (lv : Level) (p : Player) (k : Keys) (t dt : ℚ) :
    update lv p k t dt
      = bossStage
          { (stagesToCombat lv p k t dt).1 with
              arrows := (arrowsPlayerStage (stagesToCombat lv p k t dt).2
                (stagesToCombat lv p k t dt).1.arrows).2 }
          (arrowsPlayerStage (stagesToCombat lv p k t dt).2
            (stagesToCombat lv p k t dt).1.arrows).1 dt := rfl

/-- C1 (amended): at the end of every tick no hostile projectile has
lifetime ≤ 0, and every friendly projectile has lifetime ≥ 0 — but a
friendly projectile whose lifetime was zeroed by this tick's hit resolution
REMAINS in the collection until the next tick's filter, because the source
culls after integration but BEFORE hit resolution. -/
theorem projectile_life_after_update (lv : Level) (p : Player) (k : Keys)
    (t dt : ℚ) :
    (∀ ar ∈ (update lv p k t dt).1.arrows, (0:ℤ) < ar.life) ∧
    (∀ pr ∈ (update lv p k t dt).1.projs, (0:ℤ) ≤ pr.life) := by
  constructor
  · intro ar har
    rw [update_eq, bossStage_arrows] at har
    rcases List.mem_append.mp har with h | h
    · have h2 : ar ∈ (arrowsPlayerStage (stagesToCombat lv p k t dt).2
          (stagesToCombat lv p k t dt).1.arrows).2 := h
      rw [arrowsPlayerStage_snd, stagesToCombat_arrows] at h2
      exact ((keepProj_iff _ _).mp (List.mem_filter.mp h2).2).1
    · exact bossTickSpawns_life _ _ _ ar h
  · intro pr hpr
    rw [update_eq, bossStage_projs] at hpr
    have h2 : pr ∈ (stagesToCombat lv p k t dt).1.projs := hpr
    rw [stagesToCombat_projs] at h2
    have h3 : pr ∈ ((((stagesToEnemies lv p k t dt).1.projs.map
        (integ dt)).filter (keepProj (stagesToEnemies lv p k t dt).1.worldW)).foldl
        fbStep ([], (stagesToEnemies lv p k t dt).1.enemies,
          (stagesToEnemies lv p k t dt).1.boss)).1 := h2
    refine fireball_fold_life _ [] _ _ (by simp) ?_ pr h3
    intro x hx
    exact le_of_lt ((keepProj_iff _ _).mp (List.mem_filter.mp hx).2).1

/-- Witness for C1: the zeroed projectile left in `lvC1`'s friendly
collection after the tick still has nonnegative lifetime. -/
theorem projectile_life_after_update_witness :
    (0:ℤ) ≤ (Projectile.mk 50 50 4 3 0 0 0 true).life :=
  (projectile_life_after_update lvC1 pFar keys0 0 1).2 ⟨50, 50, 4, 3, 0, 0, 0, true⟩
    (by norm_num [update, stagesToCombat, stagesToEnemies, inputStage,
      fireStage, crouchHeight, Player.toBody, Player.fromBody, moveAndCollide,
      moveH, moveV, collideH1, collideV1, aabb, clamp, enemiesStage, enemyStep,
      snapToGround, findGroundBelow, fgbStep, integ, keepProj, fireballStage,
      fbStep, fbEnemyStep, fbBossStep, arrowsPlayerStage, arrowHitStep,
      bossStage, movePlatform, GRAVITY, MOVE_SPEED, JUMP_VEL, MAX_FALL, BASE_W,
      msign, Enemy.rect, Player.rect, Projectile.rect, MBody.rect,
      Platform.rect, Boss.rect, lvC1, pFar, keys0, eC1, prC1, List.foldl])

/-- C1 counterexample: the friendly projectile zeroed by this tick's hit
resolution is NOT removed from the collection by the end of the tick — the
tick ends with a lifetime-0 entry, contradicting the claim as stated. -/
theorem projectile_culled_next_tick_counterexample :
    (update lvC1 pFar keys0 0 1).1.projs = [⟨50, 50, 4, 3, 0, 0, 0, true⟩] := by
  norm_num [update, stagesToCombat, stagesToEnemies, inputStage, fireStage,
    crouchHeight, Player.toBody, Player.fromBody, moveAndCollide, moveH, moveV,
    collideH1, collideV1, aabb, clamp, enemiesStage, enemyStep, snapToGround,
    findGroundBelow, fgbStep, integ, keepProj, fireballStage, fbStep,
    fbEnemyStep, fbBossStep, arrowsPlayerStage, arrowHitStep, bossStage,
    movePlatform, GRAVITY, MOVE_SPEED, JUMP_VEL, MAX_FALL, BASE_W, msign,
    Enemy.rect, Player.rect, Projectile.rect, MBody.rect, Platform.rect,
    Boss.rect, lvC1, pFar, keys0, eC1, prC1, List.foldl]

/-- C8: resolving hostile projectiles against the player never modifies the
projectiles themselves — the player-hit block returns the hostile collection
unchanged, and the tick's final hostile collection is exactly the culled,
integrated collection plus the boss block's spawns, so a hostile projectile
persists until its lifetime reaches zero or it leaves the world bounds by the
10-unit margin (the `keepProj` filter). -/
theorem arrows_unmodified_by_player_hit (p2 : Player) (ars : List Projectile)
    (lv : Level) (p : Player) (k : Keys) (t dt : ℚ) :
    (arrowsPlayerStage p2 ars).2 = ars ∧
    (stagesToCombat lv p k t dt).1.arrows
      = ((stagesToEnemies lv p k t dt).1.arrows.map (integ dt)).filter
          (keepProj (stagesToEnemies lv p k t dt).1.worldW) ∧
    (update lv p k t dt).1.arrows
      = (stagesToCombat lv p k t dt).1.arrows
        ++ bossTickSpawns
            { (stagesToCombat lv p k t dt).1 with
                arrows := (arrowsPlayerStage (stagesToCombat lv p k t dt).2
                  (stagesToCombat lv p k t dt).1.arrows).2 }
            (arrowsPlayerStage (stagesToCombat lv p k t dt).2
              (stagesToCombat lv p k t dt).1.arrows).1 dt := by
  refine ⟨arrowsPlayerStage_snd p2 ars, stagesToCombat_arrows lv p k t dt, ?_⟩
  rw [update_eq, bossStage_arrows]
  have h1 : ({ (stagesToCombat lv p k t dt).1 with
      arrows := (arrowsPlayerStage (stagesToCombat lv p k t dt).2
        (stagesToCombat lv p k t dt).1.arrows).2 } : Level).arrows
      = (arrowsPlayerStage (stagesToCombat lv p k t dt).2
          (stagesToCombat lv p k t dt).1.arrows).2 := rfl
  rw [h1, arrowsPlayerStage_snd]

end Jogo
